import Mathlib

/-!
Verification of the capyvel reflective CRUD/query engine.

The definitions below are a shallow embedding of the Go sources:
  helpers/orm.go           (Orm.Add/Get/Update/Delete/List and their configs)
  helpers/scopes.go        (ScopeOrder, ScopePagination, ScopeSearch, CleanText)
  helpers/structaudit      (NormalizePointerType, FindFieldInfoByTag,
                            FindFieldInfoByName, ValidateFieldData,
                            ExtractFieldsByTag)

Go runtime types are modelled by an explicit inductive of the kinds the
engine distinguishes; the storage engine and the HTTP context are external
collaborators and are modelled as oracle functions, with the list of issued
storage calls returned as an explicit trace.
-/

namespace Capyvel

/-- Helper for goContains: the first character list starts the second. -/
def listStartsWith : List Char → List Char → Bool
  | [], _ => true
  | _ :: _, [] => false
  | a :: as, b :: bs => a == b && listStartsWith as bs

/-- Helper for goContains: the first character list occurs contiguously
inside the second. -/
def listHasSub (sub : List Char) : List Char → Bool
  | [] => sub.isEmpty
  | c :: rest => listStartsWith sub (c :: rest) || listHasSub sub rest

/-- Models Go strings.Contains: the second string occurs inside the first. -/
def goContains (s sub : String) : Bool :=
  listHasSub sub.toList s.toList

/-- Models reflect.StructTag.Get: looks a tag key up in the declared tag set,
returning the empty string when the key is absent. -/
def tagGet (tags : List (String × String)) (tagName : String) : String :=
  match tags.find? (fun p => p.1 == tagName) with
  | some p => p.2
  | none => ""

/-- A custom field type (for example the uuid.UUID of the repository or the
timeformats wrappers): it may decode the JSON bytes consisting of the raw
text wrapped in double quotes (its UnmarshalJSON method), and it may expose
a sql Scan method taking the raw text. Values of the custom type are
identified with their canonical textual representation. -/
structure CustomCodec where
  unmarshalQuoted : String → Option String
  scan : Option (String → Option String)

/-- The kinds of field types that ValidateFieldData distinguishes:
plain Go int (any integer width), bool, string, a custom type carrying its
own decode routines, and any other kind (plain structs etc., which the
generic quoted-JSON decode rejects and which expose no Scan method). -/
inductive GoKind where
  | kInt
  | kBool
  | kStr
  | kCustom (codec : CustomCodec)
  | kOther

/-- A runtime Go value, as far as the key-coercion path observes it. -/
inductive GoValue where
  | vInt (n : Int)
  | vBool (b : Bool)
  | vStr (s : String)
  | vCustom (rep : String)
deriving DecidableEq

/-- A declared struct field: name, struct tags, and the kind of its type. -/
structure GoField where
  name : String
  tags : List (String × String)
  kind : GoKind

/-- A Go runtime type at the granularity structaudit inspects: pointers,
slices, structs (with their declared fields) and scalar/other kinds. -/
inductive GoType where
  | tInt
  | tBool
  | tStr
  | tStruct (fields : List GoField)
  | tSlice (elem : GoType)
  | tPtr (elem : GoType)
  | tOther

/-- structaudit.FieldInfo: name, JSON tag name and the type kind of the field.
(The Go struct also carries a freshly allocated Value slot, which only
ValidateFieldData fills; it is returned separately here.) -/
structure FieldInfo where
  name : String
  tagJson : String
  kind : GoKind

/-- The structaudit error values (ErrNotPointer, ErrInvalidStructure, the
fmt.Errorf results of the find functions, and the ValidateFieldData
errors ErrMarshalJSON/ErrUnmarshalJSON/ErrScanValue/ErrUnmarshalData). -/
inductive AuditError where
  | notPointer
  | invalidStructure
  | fieldNotFound
  | multipleFields
  | scanValue
  | unmarshalData
deriving DecidableEq

/-- structaudit.NormalizePointerType: the argument must be a pointer; a
pointee slice yields the slice element type, a pointee struct yields the
struct type, anything else is ErrInvalidStructure. -/
def normalizePointerType : GoType → Except AuditError GoType
  | GoType.tPtr inner =>
    match inner with
    | GoType.tSlice e => Except.ok e
    | GoType.tStruct fs => Except.ok (GoType.tStruct fs)
    | _ => Except.error AuditError.invalidStructure
  | _ => Except.error AuditError.notPointer

/-- Loop body of structaudit.FindFieldInfoByTag: scans the declared fields
in order; the first field whose tag under tagName contains tagValue is
recorded, a second match aborts with the multiple-fields error, and an
empty record at the end is the no-field-found error. -/
def findFieldInfoByTagAux (tagName tagValue : String) :
    List GoField → Option FieldInfo → Except AuditError FieldInfo
  | [], none => Except.error AuditError.fieldNotFound
  | [], some fi => Except.ok fi
  | f :: rest, acc =>
    if goContains (tagGet f.tags tagName) tagValue then
      match acc with
      | none =>
        findFieldInfoByTagAux tagName tagValue rest (some (FieldInfo.mk f.name "" f.kind))
      | some _ => Except.error AuditError.multipleFields
    else
      findFieldInfoByTagAux tagName tagValue rest acc

/-- structaudit.FindFieldInfoByTag on a struct type given by its field
list. (The Go FieldInfo.Value slot is freshly allocated and not inspected
until ValidateFieldData runs, so it is not part of the model.) -/
def findFieldInfoByTag (fields : List GoField) (tagName tagValue : String) :
    Except AuditError FieldInfo :=
  findFieldInfoByTagAux tagName tagValue fields none

/-- Models strings.EqualFold by simple case folding (ASCII-adequate). -/
def goEqualFold (a b : String) : Bool :=
  a.toLower == b.toLower

/-- Loop body of structaudit.FindFieldInfoByName: case-insensitive exact
name match with the same first/second-match discipline as the tag scan. -/
def findFieldInfoByNameAux (fieldName : String) :
    List GoField → Option FieldInfo → Except AuditError FieldInfo
  | [], none => Except.error AuditError.fieldNotFound
  | [], some fi => Except.ok fi
  | f :: rest, acc =>
    if goEqualFold f.name fieldName then
      match acc with
      | none =>
        findFieldInfoByNameAux fieldName rest (some (FieldInfo.mk f.name "" f.kind))
      | some _ => Except.error AuditError.multipleFields
    else
      findFieldInfoByNameAux fieldName rest acc

/-- structaudit.FindFieldInfoByName on a struct type given by its fields. -/
def findFieldInfoByName (fields : List GoField) (fieldName : String) :
    Except AuditError FieldInfo :=
  findFieldInfoByNameAux fieldName fields none

/-- structaudit.ExtractFieldsByTag: names of the fields whose tag under
tagName contains tagKey (pure enumeration). -/
def extractFieldsByTag (fields : List GoField) (tagName tagKey : String) :
    List String :=
  (fields.filter (fun f => goContains (tagGet f.tags tagName) tagKey)).map GoField.name

/-- The field list of a struct type. The orchestrator only introspects
struct types (Go reflect would panic otherwise), so non-struct types are
outside the modelled domain and yield no fields. -/
def structFields : GoType → List GoField
  | GoType.tStruct fs => fs
  | _ => []

/-- A string is safe to splice between double quotes and remain a single
valid JSON string denoting itself: no quote, no backslash, no control
character. ValidateFieldData builds its JSON input by naive quoting
(fmt.Sprintf with a quoted verb), so this is the round-trip condition for
the generic decode of string-kinded fields. -/
def jsonStringSafe (s : String) : Bool :=
  s.toList.all (fun c => c != '\"' && c != '\\' && decide (31 < c.toNat))

/-- The generic decode step of structaudit.ValidateFieldData: the raw text
is wrapped in double quotes and handed to encoding/json targeting the
type of the field. A JSON string never unmarshals into Go int or bool (and not
into other plain kinds either); it unmarshals into a Go string as itself
when the naive quoting produced valid JSON; a custom type decodes it with
its own UnmarshalJSON. -/
def genericQuotedDecode (k : GoKind) (text : String) : Option GoValue :=
  match k with
  | GoKind.kInt => none
  | GoKind.kBool => none
  | GoKind.kStr => if jsonStringSafe text then some (GoValue.vStr text) else none
  | GoKind.kCustom codec => (codec.unmarshalQuoted text).map GoValue.vCustom
  | GoKind.kOther => none

/-- The Scan capability a field type exposes, if any: only custom types
(driver-valuer wrappers) implement a Scan method; plain int/bool/string
pointers do not. -/
def kindScan : GoKind → Option (String → Option String)
  | GoKind.kCustom codec => codec.scan
  | _ => none

/-- structaudit.ValidateFieldData on a field of kind k and the raw path
text. The initial marshal/unmarshal of the wrapping map is the identity on
the text (encoding/json escapes and unescapes exactly), so the observable
behaviour is: try the generic quoted decode, on failure fall back to the
Scan method of the type, and fail with ErrScanValue/ErrUnmarshalData otherwise. -/
def validateFieldData (k : GoKind) (text : String) : Except AuditError GoValue :=
  match genericQuotedDecode k text with
  | some v => Except.ok v
  | none =>
    match kindScan k with
    | some sc =>
      match sc text with
      | some r => Except.ok (GoValue.vCustom r)
      | none => Except.error AuditError.scanValue
    | none => Except.error AuditError.unmarshalData

/-- The textual encoding of a value of each supported kind (Go fmt/strconv
for scalars; the canonical text of a custom value is its representation). -/
def encodeGoValue : GoValue → String
  | GoValue.vInt n => toString n
  | GoValue.vBool b => if b then "true" else "false"
  | GoValue.vStr s => s
  | GoValue.vCustom rep => rep

/-- The whitespace class of the Go regexp \s: tab, newline, form feed,
carriage return, space. -/
def goIsSpace (c : Char) : Bool :=
  c == ' ' || c == '\t' || c == '\n' || c == '\x0c' || c == '\r'

/-- The regexp replacement step of helpers.CleanText: every maximal run of
whitespace becomes a single space. The Boolean flag records whether the
previous character was part of a run. -/
def squeezeSpaces : List Char → Bool → List Char
  | [], _ => []
  | c :: rest, prevSpace =>
    if goIsSpace c then
      if prevSpace then squeezeSpaces rest true
      else ' ' :: squeezeSpaces rest true
    else c :: squeezeSpaces rest false

/-- The whitespace class of Go strings.TrimSpace (unicode.IsSpace): the
White_Space code points — tab through carriage return (including vertical
tab), space, next line, no-break space, ogham space mark, the en-quad
through hair-space range, line and paragraph separators, narrow no-break
space, medium mathematical space and ideographic space. This class is
wider than the RE2 one used by the collapse step. -/
def goUnicodeIsSpace (c : Char) : Bool :=
  c == ' ' || c == '\t' || c == '\n' || c == '\x0b' || c == '\x0c' || c == '\r'
  || c.toNat == 0x85 || c.toNat == 0xA0 || c.toNat == 0x1680
  || (Nat.ble 0x2000 c.toNat && Nat.ble c.toNat 0x200A)
  || c.toNat == 0x2028 || c.toNat == 0x2029 || c.toNat == 0x202F
  || c.toNat == 0x205F || c.toNat == 0x3000

/-- helpers.CleanText: collapse RE2 whitespace runs to single spaces, then
strings.TrimSpace the result — the trim removes every Unicode white-space
character from both ends, a wider class than the collapse step, so for
example a leading vertical tab survives the collapse but is trimmed. The
empty string is returned unchanged. -/
def cleanText (text : String) : String :=
  if text = "" then text
  else
    String.mk (((squeezeSpaces text.toList false).dropWhile goUnicodeIsSpace).reverse.dropWhile goUnicodeIsSpace).reverse

/-- An ORDER BY fragment appended to the query: column name and direction. -/
structure OrderClause where
  column : String
  desc : Bool
deriving DecidableEq

/-- The helpers/scopes.go error values ErrColumnNotValid and
ErrNameNotValid. -/
inductive ScopeErr where
  | columnNotValid
  | nameNotValid
deriving DecidableEq

/-- helpers.ScopeOrder: the cleaned client parameter, when non-empty and
when the allow-list is non-empty, must equal the JSON tag name or the
logical name of some allow-listed field; the logical name of the first such field
becomes the order column with the requested direction. No match is
ErrColumnNotValid with the query left unchanged; an empty cleaned
parameter or an empty allow-list is a silent no-op. -/
def scopeOrder (fields : List FieldInfo) (param0 : String) (desc : Bool) :
    Except ScopeErr (Option OrderClause) :=
  let param := cleanText param0
  if param ≠ "" ∧ 0 < fields.length then
    match fields.find? (fun f => param == f.tagJson || param == f.name) with
    | some f => Except.ok (some (OrderClause.mk f.name desc))
    | none => Except.error ScopeErr.columnNotValid
  else
    Except.ok none

/-- The default-order step of Orm.List (helpers/orm.go): when a default
order field is configured, it is suppressed exactly when some allow-listed
field has that logical name and the raw client orderBy parameter equals it;
otherwise the default ORDER BY clause is appended. -/
def defaultOrderStep (defaultOrderBy : String) (defaultDesc : Bool)
    (orderFields : List FieldInfo) (paramOrderBy : String) : List OrderClause :=
  if defaultOrderBy ≠ "" then
    if orderFields.any (fun f => f.name == defaultOrderBy && paramOrderBy == defaultOrderBy) then
      []
    else
      [OrderClause.mk defaultOrderBy defaultDesc]
  else
    []

/-- The ORDER BY pipeline of Orm.List: the default-order step followed by
ScopeOrder on the client parameter. ScopeOrder runs only when the
configured OrderFields are present; a nil Go slice and an empty slice are
observationally the same here, since ScopeOrder on an empty list is a
no-op. The resulting clause list is in append order. -/
def listOrderPipeline (defaultOrderBy : String) (defaultDesc : Bool)
    (orderFields : List FieldInfo) (paramOrderBy : String) (paramDesc : Bool) :
    Except ScopeErr (List OrderClause) :=
  let base := defaultOrderStep defaultOrderBy defaultDesc orderFields paramOrderBy
  if orderFields.isEmpty then
    Except.ok base
  else
    match scopeOrder orderFields paramOrderBy paramDesc with
    | Except.ok none => Except.ok base
    | Except.ok (some c) => Except.ok (base ++ [c])
    | Except.error e => Except.error e

/-- The Limit rewrite at the top of the pagination block of Orm.List: an
unset (zero) configured limit becomes the hard-coded fallback 30. -/
def resolveListLimit (limit : Int) : Int :=
  if limit = 0 then 30 else limit

/-- The page clamp of Orm.List: negative client pages become 0. -/
def resolveListPage (page : Int) : Int :=
  if page < 0 then 0 else page

/-- The pageSize resolution of Orm.List, applied after the Limit rewrite:
a non-positive client pageSize becomes the total row count when the limit
is the sentinel -1, else the positive limit, else 30; a positive client
pageSize exceeding the limit is clamped down to the limit. -/
def resolveListPageSize (pageSize limit totalRows : Int) : Int :=
  if pageSize ≤ 0 then
    if limit = -1 then totalRows
    else if limit > 0 then limit
    else 30
  else
    if pageSize > limit then limit else pageSize

/-- Page-size resolution as Orm.List performs it, from the raw configured
limit: the Limit rewrite followed by the pageSize resolution. -/
def listResolvedPageSize (clientPageSize cfgLimit totalRows : Int) : Int :=
  resolveListPageSize clientPageSize (resolveListLimit cfgLimit) totalRows

/-- helpers.ScopePagination: offset is page times pageSize, limit is
pageSize (the row count argument is unused in the Go source as well). -/
def scopePagination (page pageSize : Int) : Int × Int :=
  (page * pageSize, pageSize)

/-- A navigation link of Orm.List: fmt.Sprintf of the trimmed request path
with the page and pageSize query parameters. -/
def listLink (baseURL : String) (page pageSize : Int) : String :=
  baseURL ++ "?page=" ++ toString page ++ "&pageSize=" ++ toString pageSize

/-- The paging-and-links tail of Orm.List (helpers/orm.go lines 399-443):
resolved meta page/pageSize, the self/next/prev navigation links, and the
offset/limit handed to the pagination scope (applied whenever pagination
is not disabled). -/
structure ListPagingOut where
  metaPage : Int
  metaPageSize : Int
  selfLink : String
  nextLink : String
  prevLink : String
  offset : Int
  limit : Int
deriving DecidableEq

/-- The paging computation of Orm.List: Limit rewrite, page clamp,
pageSize resolution, pagination scope, and link construction. The prev
link uses the clamped page minus one without further clamping, and the
next link uses the clamped page plus one. -/
def listEnvelopePaging (cfgLimit clientPage clientPageSize totalRows : Int)
    (baseURL : String) : ListPagingOut :=
  let limit := resolveListLimit cfgLimit
  let page := resolveListPage clientPage
  let ps := resolveListPageSize clientPageSize limit totalRows
  let sp := scopePagination page ps
  ListPagingOut.mk page ps
    (listLink baseURL page ps)
    (listLink baseURL (page + 1) ps)
    (listLink baseURL (page - 1) ps)
    sp.1 sp.2

/-- The error types of the responses package (TypeBind, TypeDB,
TypeUnknown). -/
inductive ErrType where
  | bind
  | db
  | unknown
deriving DecidableEq

/-- A responses.Error as the orchestrator constructs it: message, type and
HTTP status code. -/
structure ErrResp where
  message : String
  errType : ErrType
  code : Nat
deriving DecidableEq

/-- Error message constants of helpers/orm.go. -/
def ErrNormalizingReceivedObject : String := "error normalizing received object"

/-- Error message constant of helpers/orm.go. -/
def ErrObtainingObjectInfo : String := "error obtaining object information"

/-- Error message constant of helpers/orm.go. -/
def ErrValidatingIDParam : String := "error validating ID parameter"

/-- Error message constant of helpers/orm.go. -/
def ErrFetchingObject : String := "error fetching object"

/-- Error message constant of helpers/orm.go. -/
def ErrReadingDeclaredModel : String := "error reading declared model"

/-- Error message constant of helpers/orm.go. -/
def ErrUpdatingObjectInDB : String := "error updating object in the database"

/-- The default path key parameter of helpers/orm.go. -/
def defaultKeyParam : String := "id"

/-- The safe-character pattern of the disabled-validation branch of
Get/Update/Delete: regexp MatchString with the anchored pattern of one or
more ASCII letters or digits. -/
def validKeyPattern (s : String) : Bool :=
  s != "" && s.toList.all (fun c => c.isAlpha || c.isDigit)

/-- helpers/orm.go GetConfig, restricted to the fields the modelled slice
reads (the Db handle and DisableRelations concern only the storage
boundary). -/
structure GetConfig where
  columnKey : String
  keyParam : String
  disableValidationKey : Bool

/-- helpers/orm.go UpdateConfig, restricted to the fields the modelled
slice reads (Db, ObjFormat, BindMode, BatchesSize and WithAttach only
configure the storage session and the bind payload shape). -/
structure UpdateConfig where
  columnKey : String
  keyParam : String
  disableBind : Bool
  disableValidationKey : Bool

/-- Orm.Get. The record argument is represented by its runtime type; the
storage engine is an oracle from the WHERE fragment and key value to an
optional error. The returned trace lists the storage calls issued, so a
result with an empty trace failed before any storage call. On success the
payload is the reported relation field names (gorm foreignKey then
many2many markers). -/
def ormGet (obj : GoType) (cfg : GetConfig) (ctxParam : String → String)
    (dbFirst : String → GoValue → Option String) :
    Except ErrResp (List String) × List (String × GoValue) :=
  match normalizePointerType obj with
  | Except.error _ =>
    (Except.error (ErrResp.mk ErrNormalizingReceivedObject ErrType.unknown 500), [])
  | Except.ok objType =>
    let fields := structFields objType
    let fiRes :=
      if cfg.columnKey ≠ "" then findFieldInfoByName fields cfg.columnKey
      else findFieldInfoByTag fields "gorm" "primaryKey"
    match fiRes with
    | Except.error _ =>
      (Except.error (ErrResp.mk ErrObtainingObjectInfo ErrType.unknown 500), [])
    | Except.ok fi =>
      let keyParam := if cfg.keyParam ≠ "" then cfg.keyParam else defaultKeyParam
      let raw := ctxParam keyParam
      let valRes : Except ErrResp GoValue :=
        if !cfg.disableValidationKey then
          match validateFieldData fi.kind raw with
          | Except.error _ => Except.error (ErrResp.mk ErrValidatingIDParam ErrType.bind 400)
          | Except.ok v => Except.ok v
        else
          if validKeyPattern raw then Except.ok (GoValue.vStr raw)
          else Except.error (ErrResp.mk ErrValidatingIDParam ErrType.bind 400)
      match valRes with
      | Except.error e => (Except.error e, [])
      | Except.ok v =>
        let whereFrag := fi.name ++ " = ?"
        match dbFirst whereFrag v with
        | some _ =>
          (Except.error (ErrResp.mk ErrFetchingObject ErrType.db 500), [(whereFrag, v)])
        | none =>
          let rels := extractFieldsByTag fields "gorm" "foreignKey"
            ++ extractFieldsByTag fields "gorm" "many2many"
          (Except.ok rels, [(whereFrag, v)])

/-- Orm.Update. Pipeline order as in the source: normalize, identity-field
resolution (explicit ColumnKey name lookup or gorm primaryKey tag lookup),
body bind (skippable, outcome given by the bind oracle), key validation,
then the single UpdateColumns storage call, recorded in the trace. -/
def ormUpdate (obj : GoType) (cfg : UpdateConfig) (ctxParam : String → String)
    (bindJson : Option String) (dbUpdate : String → GoValue → Option String) :
    Except ErrResp Unit × List (String × GoValue) :=
  let keyParam := if cfg.keyParam ≠ "" then cfg.keyParam else defaultKeyParam
  match normalizePointerType obj with
  | Except.error _ =>
    (Except.error (ErrResp.mk ErrNormalizingReceivedObject ErrType.unknown 500), [])
  | Except.ok objType =>
    let fields := structFields objType
    let fiRes :=
      if cfg.columnKey ≠ "" then findFieldInfoByName fields cfg.columnKey
      else findFieldInfoByTag fields "gorm" "primaryKey"
    match fiRes with
    | Except.error _ =>
      (Except.error (ErrResp.mk ErrObtainingObjectInfo ErrType.unknown 500), [])
    | Except.ok fi =>
      match (if cfg.disableBind then none else bindJson) with
      | some _ =>
        (Except.error (ErrResp.mk ErrReadingDeclaredModel ErrType.bind 400), [])
      | none =>
        let raw := ctxParam keyParam
        let valRes : Except ErrResp GoValue :=
          if !cfg.disableValidationKey then
            match validateFieldData fi.kind raw with
            | Except.error _ => Except.error (ErrResp.mk ErrValidatingIDParam ErrType.bind 400)
            | Except.ok v => Except.ok v
          else
            if validKeyPattern raw then Except.ok (GoValue.vStr raw)
            else Except.error (ErrResp.mk ErrValidatingIDParam ErrType.bind 400)
        match valRes with
        | Except.error e => (Except.error e, [])
        | Except.ok v =>
          let whereFrag := fi.name ++ " = ?"
          match dbUpdate whereFrag v with
          | some _ =>
            (Except.error (ErrResp.mk ErrUpdatingObjectInDB ErrType.db 500), [(whereFrag, v)])
          | none => (Except.ok () , [(whereFrag, v)])

/-! Theorems. -/

/-- Helper: the tag scan with a field already recorded succeeds with that
field when no remaining field matches. -/
lemma findTagAux_noMatch (tagName tagValue : String) (fields : List GoField) (fi : FieldInfo)
    (h : ∀ f ∈ fields, goContains (tagGet f.tags tagName) tagValue = false) :
    findFieldInfoByTagAux tagName tagValue fields (some fi) = Except.ok fi := by
  induction fields with
  | nil => rfl
  | cons f rest ih =>
    have hf := h f (List.mem_cons_self f rest)
    simp only [findFieldInfoByTagAux, hf, Bool.false_eq_true, if_false]
    exact ih (fun g hg => h g (List.mem_cons_of_mem f hg))

/-- Helper: the tag scan with a field already recorded aborts with the
multiple-fields error when some remaining field matches. -/
lemma findTagAux_someMatch (tagName tagValue : String) (fields : List GoField) (fi : FieldInfo)
    (h : ∃ f ∈ fields, goContains (tagGet f.tags tagName) tagValue = true) :
    findFieldInfoByTagAux tagName tagValue fields (some fi) = Except.error AuditError.multipleFields := by
  induction fields with
  | nil => simp at h
  | cons f rest ih =>
    by_cases hf : goContains (tagGet f.tags tagName) tagValue = true
    · simp only [findFieldInfoByTagAux, hf, if_true]
    · simp only [findFieldInfoByTagAux, hf, if_false]
      apply ih
      rcases h with ⟨g, hg, hpred⟩
      rcases List.mem_cons.mp hg with hgf | hgr
      · exact absurd (hgf ▸ hpred) hf
      · exact ⟨g, hgr, hpred⟩

/-- Helper: the whole tag scan, characterized by the list of matching
fields. -/
lemma findFieldInfoByTag_eq_match (fields : List GoField) (tagName tagValue : String) :
    findFieldInfoByTag fields tagName tagValue =
      match fields.filter (fun f => goContains (tagGet f.tags tagName) tagValue) with
      | [] => Except.error AuditError.fieldNotFound
      | f :: rest =>
        if rest.isEmpty then Except.ok (FieldInfo.mk f.name "" f.kind)
        else Except.error AuditError.multipleFields := by
  show findFieldInfoByTagAux tagName tagValue fields none = _
  induction fields with
  | nil => rfl
  | cons f rest ih =>
    cases hf : goContains (tagGet f.tags tagName) tagValue with
    | false =>
      have e1 : findFieldInfoByTagAux tagName tagValue (f :: rest) none
          = findFieldInfoByTagAux tagName tagValue rest none := by
        simp only [findFieldInfoByTagAux, hf, Bool.false_eq_true, if_false]
      have e2 : List.filter (fun g => goContains (tagGet g.tags tagName) tagValue) (f :: rest)
          = List.filter (fun g => goContains (tagGet g.tags tagName) tagValue) rest := by
        simp [List.filter_cons, hf]
      rw [e1, e2]
      exact ih
    | true =>
      have e1 : findFieldInfoByTagAux tagName tagValue (f :: rest) none
          = findFieldInfoByTagAux tagName tagValue rest (some (FieldInfo.mk f.name "" f.kind)) := by
        simp only [findFieldInfoByTagAux, hf, if_true]
      have e2 : List.filter (fun g => goContains (tagGet g.tags tagName) tagValue) (f :: rest)
          = f :: List.filter (fun g => goContains (tagGet g.tags tagName) tagValue) rest := by
        simp [List.filter_cons, hf]
      rw [e1, e2]
      rcases hrest : List.filter (fun g => goContains (tagGet g.tags tagName) tagValue) rest
        with _ | ⟨g, gs⟩
      · have hnone : ∀ g ∈ rest, goContains (tagGet g.tags tagName) tagValue = false := by
          intro g hg
          by_contra hcon
          have hmem : g ∈ List.filter (fun g => goContains (tagGet g.tags tagName) tagValue) rest :=
            List.mem_filter.mpr ⟨hg, Bool.of_not_eq_false hcon⟩
          rw [hrest] at hmem
          simp at hmem
        rw [hrest]
        exact findTagAux_noMatch tagName tagValue rest (FieldInfo.mk f.name "" f.kind) hnone
      · have hsome : ∃ g ∈ rest, goContains (tagGet g.tags tagName) tagValue = true := by
          have hmem : g ∈ List.filter (fun g => goContains (tagGet g.tags tagName) tagValue) rest := by
            rw [hrest]
            exact List.mem_cons_self g gs
          rcases List.mem_filter.mp hmem with ⟨hm, hpred⟩
          exact ⟨g, hm, hpred⟩
        rw [hrest]
        exact findTagAux_someMatch tagName tagValue rest (FieldInfo.mk f.name "" f.kind) hsome

/-- Claim C2: FindFieldInfoByTag returns the unique identity-marked field
of a record type when exactly one field carries the marker, fails with the
field-not-found error when no field does, and fails with the
multiple-fields error when two or more do. -/
theorem C2_findFieldInfoByTag_spec (fields : List GoField) (tagName tagValue : String) :
    (fields.filter (fun f => goContains (tagGet f.tags tagName) tagValue) = [] →
      findFieldInfoByTag fields tagName tagValue = Except.error AuditError.fieldNotFound)
    ∧ (∀ f : GoField,
        fields.filter (fun f => goContains (tagGet f.tags tagName) tagValue) = [f] →
        findFieldInfoByTag fields tagName tagValue = Except.ok (FieldInfo.mk f.name "" f.kind))
    ∧ (2 ≤ (fields.filter (fun f => goContains (tagGet f.tags tagName) tagValue)).length →
        findFieldInfoByTag fields tagName tagValue = Except.error AuditError.multipleFields) := by
  refine ⟨?_, ?_, ?_⟩
  · intro h
    rw [findFieldInfoByTag_eq_match, h]
  · intro f h
    rw [findFieldInfoByTag_eq_match, h]
    rfl
  · intro h
    rw [findFieldInfoByTag_eq_match]
    rcases hm : fields.filter (fun f => goContains (tagGet f.tags tagName) tagValue) with _ | ⟨g, gs⟩
    · rw [hm] at h
      simp at h
    · rw [hm] at h
      rw [hm]
      rcases gs with _ | ⟨g2, gs2⟩
      · simp at h
      · rfl

/-- Witness for C2 at concrete record types: one identity-marked field is
returned, zero fail with field-not-found, two fail with multiple-fields. -/
theorem C2_findFieldInfoByTag_witness :
    findFieldInfoByTag
      [GoField.mk "ID" [("gorm", "primaryKey")] GoKind.kInt,
       GoField.mk "Name" [("json", "name")] GoKind.kStr] "gorm" "primaryKey"
      = Except.ok (FieldInfo.mk "ID" "" GoKind.kInt)
    ∧ findFieldInfoByTag [GoField.mk "Name" [("json", "name")] GoKind.kStr] "gorm" "primaryKey"
      = Except.error AuditError.fieldNotFound
    ∧ findFieldInfoByTag
      [GoField.mk "A" [("gorm", "primaryKey")] GoKind.kInt,
       GoField.mk "B" [("gorm", "primaryKey")] GoKind.kInt] "gorm" "primaryKey"
      = Except.error AuditError.multipleFields := by
  refine ⟨?_, ?_, ?_⟩
  · exact (C2_findFieldInfoByTag_spec _ "gorm" "primaryKey").2.1
      (GoField.mk "ID" [("gorm", "primaryKey")] GoKind.kInt) rfl
  · exact (C2_findFieldInfoByTag_spec _ "gorm" "primaryKey").1 rfl
  · exact (C2_findFieldInfoByTag_spec _ "gorm" "primaryKey").2.2 (by decide)

/-- Claim C7 counterexample: a pointer to a slice of plain ints is neither
a record nor a collection of records, yet NormalizePointerType accepts it
and returns the non-record element type instead of the invalid-structure
error the claim requires. -/
theorem C7_counterexample :
    normalizePointerType (GoType.tPtr (GoType.tSlice GoType.tInt)) = Except.ok GoType.tInt
    ∧ normalizePointerType (GoType.tPtr (GoType.tSlice GoType.tInt))
      ≠ Except.error AuditError.invalidStructure :=
  ⟨rfl, fun h => Except.noConfusion h⟩

/-- Claim C7 as amended: NormalizePointerType fails with the not-pointer
error for every non-pointer, returns the struct type for a pointer to a
struct, returns the element type for a pointer to any slice without
checking that the element kind is a struct, and fails with the
invalid-structure error exactly when the pointee is neither a struct nor a
slice. -/
theorem C7_normalizePointerType_amended (t u e : GoType) (fs : List GoField) :
    ((∀ w : GoType, t ≠ GoType.tPtr w) →
      normalizePointerType t = Except.error AuditError.notPointer)
    ∧ normalizePointerType (GoType.tPtr (GoType.tStruct fs)) = Except.ok (GoType.tStruct fs)
    ∧ normalizePointerType (GoType.tPtr (GoType.tSlice e)) = Except.ok e
    ∧ ((∀ gs : List GoField, u ≠ GoType.tStruct gs) → (∀ w : GoType, u ≠ GoType.tSlice w) →
        normalizePointerType (GoType.tPtr u) = Except.error AuditError.invalidStructure) := by
  refine ⟨?_, rfl, rfl, ?_⟩
  · intro h
    cases t with
    | tPtr w => exact absurd rfl (h w)
    | tInt => rfl
    | tBool => rfl
    | tStr => rfl
    | tStruct _ => rfl
    | tSlice _ => rfl
    | tOther => rfl
  · intro hs hl
    cases u with
    | tStruct gs => exact absurd rfl (hs gs)
    | tSlice w => exact absurd rfl (hl w)
    | tInt => rfl
    | tBool => rfl
    | tStr => rfl
    | tPtr _ => rfl
    | tOther => rfl

/-- Witness for C7 amended at concrete types: an int is not passed by
reference, a pointer to a struct yields the struct, a pointer to a slice
yields its element, a pointer to a bool pointee is an invalid structure. -/
theorem C7_normalizePointerType_witness :
    normalizePointerType GoType.tInt = Except.error AuditError.notPointer
    ∧ normalizePointerType (GoType.tPtr (GoType.tStruct [])) = Except.ok (GoType.tStruct [])
    ∧ normalizePointerType (GoType.tPtr (GoType.tSlice GoType.tStr)) = Except.ok GoType.tStr
    ∧ normalizePointerType (GoType.tPtr GoType.tBool) = Except.error AuditError.invalidStructure := by
  have h := C7_normalizePointerType_amended GoType.tInt GoType.tBool GoType.tStr []
  exact ⟨h.1 (fun w hw => GoType.noConfusion hw), h.2.1, h.2.2.1,
    h.2.2.2 (fun gs hg => GoType.noConfusion hg) (fun w hw => GoType.noConfusion hw)⟩

/-- Claim C3 counterexample: an int-kinded field value encodes to its
decimal text, but coercing that text back fails with ErrUnmarshalData,
because the quoted text is not valid JSON for an int and a plain int
exposes no Scan method; the claimed round-trip does not hold. -/
theorem C3_counterexample :
    encodeGoValue (GoValue.vInt 42) = "42"
    ∧ validateFieldData GoKind.kInt (encodeGoValue (GoValue.vInt 42))
      = Except.error AuditError.unmarshalData
    ∧ validateFieldData GoKind.kInt (encodeGoValue (GoValue.vInt 42))
      ≠ Except.ok (GoValue.vInt 42) :=
  ⟨rfl, rfl, fun h => Except.noConfusion h⟩

/-- Claim C3 as amended: the decode order is generic-first then Scan, and
the round-trip holds for string-kinded fields on JSON-safe texts and for
custom field types whose own decode routine round-trips; int- and
bool-kinded fields never round-trip, failing with ErrUnmarshalData. -/
theorem C3_roundtrip_amended (s : String) (codec : CustomCodec) (rep text : String)
    (n : Int) (b : Bool) :
    (jsonStringSafe s = true →
      validateFieldData GoKind.kStr (encodeGoValue (GoValue.vStr s)) = Except.ok (GoValue.vStr s))
    ∧ (codec.unmarshalQuoted rep = some rep →
      validateFieldData (GoKind.kCustom codec) (encodeGoValue (GoValue.vCustom rep))
        = Except.ok (GoValue.vCustom rep))
    ∧ (∀ sc : String → Option String, ∀ r : String,
        codec.unmarshalQuoted text = none → codec.scan = some sc → sc text = some r →
        validateFieldData (GoKind.kCustom codec) text = Except.ok (GoValue.vCustom r))
    ∧ validateFieldData GoKind.kInt (encodeGoValue (GoValue.vInt n))
      = Except.error AuditError.unmarshalData
    ∧ validateFieldData GoKind.kBool (encodeGoValue (GoValue.vBool b))
      = Except.error AuditError.unmarshalData := by
  refine ⟨?_, ?_, ?_, rfl, rfl⟩
  · intro h
    simp [validateFieldData, genericQuotedDecode, encodeGoValue, h]
  · intro h
    simp [validateFieldData, genericQuotedDecode, encodeGoValue, h]
  · intro sc r hgen hscan hsc
    simp [validateFieldData, genericQuotedDecode, kindScan, hgen, hscan, hsc]

/-- Witness for C3 amended at concrete inputs: a safe string round-trips, a
custom codec that accepts its own text round-trips, a custom codec that
fails the generic decode falls back to Scan, and int/bool texts fail. -/
theorem C3_roundtrip_witness :
    validateFieldData GoKind.kStr (encodeGoValue (GoValue.vStr "abc"))
      = Except.ok (GoValue.vStr "abc")
    ∧ validateFieldData
        (GoKind.kCustom (CustomCodec.mk (fun t => if t = "k1" then some "k1" else none)
          (some (fun t => some t))))
        (encodeGoValue (GoValue.vCustom "k1"))
      = Except.ok (GoValue.vCustom "k1")
    ∧ validateFieldData
        (GoKind.kCustom (CustomCodec.mk (fun t => if t = "k1" then some "k1" else none)
          (some (fun t => some t)))) "zz"
      = Except.ok (GoValue.vCustom "zz")
    ∧ validateFieldData GoKind.kInt (encodeGoValue (GoValue.vInt 42))
      = Except.error AuditError.unmarshalData
    ∧ validateFieldData GoKind.kBool (encodeGoValue (GoValue.vBool true))
      = Except.error AuditError.unmarshalData := by
  have h := C3_roundtrip_amended "abc"
    (CustomCodec.mk (fun t => if t = "k1" then some "k1" else none) (some (fun t => some t)))
    "k1" "zz" 42 true
  exact ⟨h.1 rfl, h.2.1 (by simp), h.2.2.1 (fun t => some t) "zz" (by simp) rfl rfl,
    h.2.2.2.1, h.2.2.2.2⟩

/-- Claim C4 counterexample: with an empty allow-list, a non-empty
requested name that matches no entry is silently accepted by ScopeOrder
(no error, no clause) instead of failing with ErrColumnNotValid as the
claim requires for every allow-list. -/
theorem C4_counterexample :
    cleanText "evil;--" ≠ ""
    ∧ scopeOrder [] "evil;--" false = Except.ok none
    ∧ scopeOrder [] "evil;--" false ≠ Except.error ScopeErr.columnNotValid :=
  ⟨by decide, rfl, fun h => Except.noConfusion h⟩

/-- Claim C4 as amended: when the allow-list is non-empty and the
whitespace-normalized requested name is non-empty, ScopeOrder fails with
ErrColumnNotValid (appending no clause) whenever the normalized name
matches no entry by JSON tag name or logical name — including strings of
SQL meta-characters — and appends one order clause on the logical name of a matched
entry with the requested direction otherwise. -/
theorem C4_scopeOrder_amended (fields : List FieldInfo) (param : String) (desc : Bool)
    (hf : fields ≠ []) (hp : cleanText param ≠ "") :
    ((∀ f ∈ fields, cleanText param ≠ f.tagJson ∧ cleanText param ≠ f.name) →
      scopeOrder fields param desc = Except.error ScopeErr.columnNotValid)
    ∧ ((∃ f ∈ fields, cleanText param = f.tagJson ∨ cleanText param = f.name) →
      ∃ f ∈ fields, (cleanText param = f.tagJson ∨ cleanText param = f.name) ∧
        scopeOrder fields param desc = Except.ok (some (OrderClause.mk f.name desc))) := by
  have hcond : cleanText param ≠ "" ∧ 0 < fields.length :=
    ⟨hp, List.length_pos.mpr hf⟩
  constructor
  · intro h
    have hnone : fields.find? (fun f => cleanText param == f.tagJson || cleanText param == f.name)
        = none := by
      rw [List.find?_eq_none]
      intro g hg
      have hgg := h g hg
      simp only [Bool.or_eq_true, beq_iff_eq]
      push_neg
      exact hgg
    simp only [scopeOrder]
    rw [if_pos hcond, hnone]
  · intro h
    have hsome : (fields.find?
        (fun f => cleanText param == f.tagJson || cleanText param == f.name)).isSome := by
      rw [List.find?_isSome]
      rcases h with ⟨f, hmem, hor⟩
      refine ⟨f, hmem, ?_⟩
      simp only [Bool.or_eq_true, beq_iff_eq]
      exact hor
    rcases Option.isSome_iff_exists.mp hsome with ⟨f, hfind⟩
    have hmem : f ∈ fields := List.mem_of_find?_eq_some hfind
    have hpred := List.find?_some hfind
    simp only [Bool.or_eq_true, beq_iff_eq] at hpred
    refine ⟨f, hmem, hpred, ?_⟩
    simp only [scopeOrder]
    rw [if_pos hcond, hfind]

/-- Witness for C4 amended at concrete inputs: a name of SQL
meta-characters is rejected with ErrColumnNotValid, and the allow-listed
field requested by its JSON tag name is ordered on its logical column. -/
theorem C4_scopeOrder_witness :
    scopeOrder [FieldInfo.mk "CreatedAt" "createdAt" GoKind.kStr] "name;DROP TABLE users" false
      = Except.error ScopeErr.columnNotValid
    ∧ ∃ f ∈ [FieldInfo.mk "CreatedAt" "createdAt" GoKind.kStr],
        (cleanText "createdAt" = f.tagJson ∨ cleanText "createdAt" = f.name) ∧
        scopeOrder [FieldInfo.mk "CreatedAt" "createdAt" GoKind.kStr] "createdAt" true
          = Except.ok (some (OrderClause.mk f.name true)) := by
  constructor
  · exact (C4_scopeOrder_amended [FieldInfo.mk "CreatedAt" "createdAt" GoKind.kStr]
      "name;DROP TABLE users" false (List.cons_ne_nil _ _) (by decide)).1 (by decide)
  · exact (C4_scopeOrder_amended [FieldInfo.mk "CreatedAt" "createdAt" GoKind.kStr]
      "createdAt" true (List.cons_ne_nil _ _) (by decide)).2
      ⟨FieldInfo.mk "CreatedAt" "createdAt" GoKind.kStr, List.mem_singleton_self _, by decide⟩

/-- Claim C8 counterexample: with default order CreatedAt (descending) and
the allow-list carrying CreatedAt under JSON tag name createdAt, a client
requesting the same field by its JSON tag name does not trigger the
repetition check (which compares the raw parameter with the logical name
only), so the pipeline appends both the default clause and the client
clause on the same column with conflicting directions. -/
theorem C8_counterexample :
    listOrderPipeline "CreatedAt" true [FieldInfo.mk "CreatedAt" "createdAt" GoKind.kStr]
        "createdAt" false
      = Except.ok [OrderClause.mk "CreatedAt" true, OrderClause.mk "CreatedAt" false]
    ∧ (OrderClause.mk "CreatedAt" true).column = (OrderClause.mk "CreatedAt" false).column
    ∧ (OrderClause.mk "CreatedAt" true).desc ≠ (OrderClause.mk "CreatedAt" false).desc :=
  ⟨rfl, rfl, by decide⟩

/-- Claim C8 as amended: the default ORDER BY clause is suppressed exactly
when the raw client orderBy parameter equals the logical name of the default
field and some allow-list entry carries that logical name; whenever the raw
parameter differs from the logical name — in particular when the client
requests the same field by its external JSON tag name — the default clause
is still appended, so a duplicate clause on that column can follow from
ScopeOrder. -/
theorem C8_defaultOrder_amended (defaultOrderBy : String) (defaultDesc : Bool)
    (orderFields : List FieldInfo) (paramOrderBy : String) (h : defaultOrderBy ≠ "") :
    ((paramOrderBy = defaultOrderBy ∧ ∃ f ∈ orderFields, f.name = defaultOrderBy) →
      defaultOrderStep defaultOrderBy defaultDesc orderFields paramOrderBy = [])
    ∧ (paramOrderBy ≠ defaultOrderBy →
      defaultOrderStep defaultOrderBy defaultDesc orderFields paramOrderBy
        = [OrderClause.mk defaultOrderBy defaultDesc])
    ∧ ((∀ f ∈ orderFields, f.name ≠ defaultOrderBy) →
      defaultOrderStep defaultOrderBy defaultDesc orderFields paramOrderBy
        = [OrderClause.mk defaultOrderBy defaultDesc]) := by
  refine ⟨?_, ?_, ?_⟩
  · rintro ⟨hpe, f, hmem, hname⟩
    have hany : orderFields.any
        (fun f => f.name == defaultOrderBy && paramOrderBy == defaultOrderBy) = true := by
      rw [List.any_eq_true]
      refine ⟨f, hmem, ?_⟩
      simp [hname, hpe]
    simp only [defaultOrderStep]
    rw [if_pos h, if_pos hany]
  · intro hne
    have hany : orderFields.any
        (fun f => f.name == defaultOrderBy && paramOrderBy == defaultOrderBy) = false := by
      rw [List.any_eq_false]
      intro f hmem
      simp [hne]
    simp only [defaultOrderStep]
    rw [if_pos h, hany]
    rfl
  · intro hnone
    have hany : orderFields.any
        (fun f => f.name == defaultOrderBy && paramOrderBy == defaultOrderBy) = false := by
      rw [List.any_eq_false]
      intro f hmem
      simp [hnone f hmem]
    simp only [defaultOrderStep]
    rw [if_pos h, hany]
    rfl

/-- Witness for C8 amended at concrete inputs: requesting the default
field by its logical name suppresses the default clause; requesting it by
its JSON tag name does not; an allow-list without the field does not. -/
theorem C8_defaultOrder_witness :
    defaultOrderStep "CreatedAt" true [FieldInfo.mk "CreatedAt" "createdAt" GoKind.kStr] "CreatedAt"
      = []
    ∧ defaultOrderStep "CreatedAt" true [FieldInfo.mk "CreatedAt" "createdAt" GoKind.kStr] "createdAt"
      = [OrderClause.mk "CreatedAt" true]
    ∧ defaultOrderStep "CreatedAt" true [FieldInfo.mk "Name" "name" GoKind.kStr] "CreatedAt"
      = [OrderClause.mk "CreatedAt" true] := by
  refine ⟨?_, ?_, ?_⟩
  · exact (C8_defaultOrder_amended "CreatedAt" true
      [FieldInfo.mk "CreatedAt" "createdAt" GoKind.kStr] "CreatedAt" (by decide)).1
      ⟨rfl, FieldInfo.mk "CreatedAt" "createdAt" GoKind.kStr, List.mem_singleton_self _, rfl⟩
  · exact (C8_defaultOrder_amended "CreatedAt" true
      [FieldInfo.mk "CreatedAt" "createdAt" GoKind.kStr] "createdAt" (by decide)).2.1 (by decide)
  · exact (C8_defaultOrder_amended "CreatedAt" true
      [FieldInfo.mk "Name" "name" GoKind.kStr] "CreatedAt" (by decide)).2.2
      (by intro f hf; simp at hf; simp [hf])

/-- Helper: the Limit rewrite leaves a non-zero limit unchanged. -/
lemma resolveListLimit_of_ne (limit : Int) (h : limit ≠ 0) :
    resolveListLimit limit = limit := by
  simp only [resolveListLimit]
  rw [if_neg h]

/-- Helper: the Limit rewrite turns an unset limit into 30. -/
lemma resolveListLimit_zero : resolveListLimit 0 = 30 := by
  norm_num [resolveListLimit]

/-- Helper: a non-positive client pageSize with the sentinel limit
resolves to the total row count. -/
lemma resolveListPageSize_nonpos_sentinel (ps limit total : Int)
    (hps : ps ≤ 0) (hl : limit = -1) :
    resolveListPageSize ps limit total = total := by
  simp only [resolveListPageSize]
  split_ifs
  all_goals omega

/-- Helper: a non-positive client pageSize with a positive limit resolves
to the limit. -/
lemma resolveListPageSize_nonpos_pos (ps limit total : Int)
    (hps : ps ≤ 0) (hl : 0 < limit) :
    resolveListPageSize ps limit total = limit := by
  simp only [resolveListPageSize]
  split_ifs <;> omega

/-- Helper: a positive client pageSize above the limit is clamped to the
limit. -/
lemma resolveListPageSize_clamp (ps limit total : Int)
    (hps : 0 < ps) (hl : limit < ps) :
    resolveListPageSize ps limit total = limit := by
  simp only [resolveListPageSize]
  split_ifs <;> omega

/-- Claim C1: the List page-size resolution: a non-positive client
pageSize resolves to the total row count when the configured limit is the
sentinel -1, to the limit when it is positive, and to the fallback 30 when
no limit is configured; a positive client pageSize exceeding a positive
limit is clamped down to the limit. -/
theorem C1_pageSize_precedence (ps limit total : Int) :
    (ps ≤ 0 → limit = -1 → listResolvedPageSize ps limit total = total)
    ∧ (ps ≤ 0 → 0 < limit → listResolvedPageSize ps limit total = limit)
    ∧ (ps ≤ 0 → limit = 0 → listResolvedPageSize ps limit total = 30)
    ∧ (0 < ps → 0 < limit → limit < ps → listResolvedPageSize ps limit total = limit) := by
  refine ⟨?_, ?_, ?_, ?_⟩
  · intro hps hlim
    simp only [listResolvedPageSize]
    rw [resolveListLimit_of_ne limit (by omega)]
    exact resolveListPageSize_nonpos_sentinel ps limit total hps hlim
  · intro hps hlim
    simp only [listResolvedPageSize]
    rw [resolveListLimit_of_ne limit (by omega)]
    exact resolveListPageSize_nonpos_pos ps limit total hps hlim
  · intro hps hlim
    subst hlim
    simp only [listResolvedPageSize]
    rw [resolveListLimit_zero]
    exact resolveListPageSize_nonpos_pos ps 30 total hps (by norm_num)
  · intro hps hl1 hl2
    simp only [listResolvedPageSize]
    rw [resolveListLimit_of_ne limit (by omega)]
    exact resolveListPageSize_clamp ps limit total hps hl2

/-- Witness for C1 at concrete inputs covering all four precedence cases. -/
theorem C1_pageSize_witness :
    listResolvedPageSize 0 (-1) 7 = 7
    ∧ listResolvedPageSize 0 5 7 = 5
    ∧ listResolvedPageSize 0 0 7 = 30
    ∧ listResolvedPageSize 9 5 7 = 5 := by
  refine ⟨?_, ?_, ?_, ?_⟩
  · exact (C1_pageSize_precedence 0 (-1) 7).1 (by norm_num) rfl
  · exact (C1_pageSize_precedence 0 5 7).2.1 (by norm_num) (by norm_num)
  · exact (C1_pageSize_precedence 0 0 7).2.2.1 (by norm_num) rfl
  · exact (C1_pageSize_precedence 9 5 7).2.2.2 (by norm_num) (by norm_num) (by norm_num)

/-- Claim C9: the List page index is clamped to be non-negative and that
clamped page drives the pagination offset and all navigation links; the
prev link is built from the clamped page minus one without further
clamping, so every request resolving to page 0 yields a prev link
referencing page -1, and next always references page plus one. -/
theorem C9_prev_link (cfgLimit clientPage clientPageSize totalRows : Int) (baseURL : String) :
    0 ≤ (listEnvelopePaging cfgLimit clientPage clientPageSize totalRows baseURL).metaPage
    ∧ (listEnvelopePaging cfgLimit clientPage clientPageSize totalRows baseURL).offset
      = (listEnvelopePaging cfgLimit clientPage clientPageSize totalRows baseURL).metaPage
        * (listEnvelopePaging cfgLimit clientPage clientPageSize totalRows baseURL).metaPageSize
    ∧ (listEnvelopePaging cfgLimit clientPage clientPageSize totalRows baseURL).prevLink
      = listLink baseURL
          ((listEnvelopePaging cfgLimit clientPage clientPageSize totalRows baseURL).metaPage - 1)
          ((listEnvelopePaging cfgLimit clientPage clientPageSize totalRows baseURL).metaPageSize)
    ∧ (listEnvelopePaging cfgLimit clientPage clientPageSize totalRows baseURL).nextLink
      = listLink baseURL
          ((listEnvelopePaging cfgLimit clientPage clientPageSize totalRows baseURL).metaPage + 1)
          ((listEnvelopePaging cfgLimit clientPage clientPageSize totalRows baseURL).metaPageSize)
    ∧ (clientPage ≤ 0 →
        (listEnvelopePaging cfgLimit clientPage clientPageSize totalRows baseURL).prevLink
          = listLink baseURL (-1)
              ((listEnvelopePaging cfgLimit clientPage clientPageSize totalRows baseURL).metaPageSize)) := by
  refine ⟨?_, rfl, rfl, rfl, ?_⟩
  · show (0 : Int) ≤ resolveListPage clientPage
    simp only [resolveListPage]
    split_ifs <;> omega
  · intro hpage
    have h0 : resolveListPage clientPage = 0 := by
      simp only [resolveListPage]
      split_ifs <;> omega
    show listLink baseURL (resolveListPage clientPage - 1) _ = _
    rw [h0]
    norm_num
    rfl

/-- Witness for C9 at a concrete request resolving to page 0: the prev
link references page -1 and the next link references page 1. -/
theorem C9_prev_link_witness :
    (listEnvelopePaging 0 (-3) 0 7 "/api/widgets").prevLink = "/api/widgets?page=-1&pageSize=30"
    ∧ (listEnvelopePaging 0 (-3) 0 7 "/api/widgets").nextLink = "/api/widgets?page=1&pageSize=30" := by
  constructor
  · exact ((C9_prev_link 0 (-3) 0 7 "/api/widgets").2.2.2.2 (by norm_num)).trans (by decide)
  · exact ((C9_prev_link 0 (-3) 0 7 "/api/widgets").2.2.2.1).trans (by decide)

/-- Claim C10: with the unlimited sentinel -1 configured as Limit and a
positive client pageSize, the clamp branch fires and the resolved pageSize
becomes -1: the client value is discarded, -1 is reported as the pageSize
of the paging metadata and of every navigation link, and -1 is the limit
handed to the pagination scope. -/
theorem C10_unlimited_clamp (clientPage clientPageSize totalRows : Int) (baseURL : String)
    (h : 0 < clientPageSize) :
    (listEnvelopePaging (-1) clientPage clientPageSize totalRows baseURL).metaPageSize = -1
    ∧ (listEnvelopePaging (-1) clientPage clientPageSize totalRows baseURL).limit = -1
    ∧ (listEnvelopePaging (-1) clientPage clientPageSize totalRows baseURL).offset
      = (listEnvelopePaging (-1) clientPage clientPageSize totalRows baseURL).metaPage * (-1)
    ∧ (listEnvelopePaging (-1) clientPage clientPageSize totalRows baseURL).selfLink
      = listLink baseURL
          ((listEnvelopePaging (-1) clientPage clientPageSize totalRows baseURL).metaPage) (-1)
    ∧ (listEnvelopePaging (-1) clientPage clientPageSize totalRows baseURL).nextLink
      = listLink baseURL
          ((listEnvelopePaging (-1) clientPage clientPageSize totalRows baseURL).metaPage + 1) (-1)
    ∧ (listEnvelopePaging (-1) clientPage clientPageSize totalRows baseURL).prevLink
      = listLink baseURL
          ((listEnvelopePaging (-1) clientPage clientPageSize totalRows baseURL).metaPage - 1) (-1) := by
  have hps : resolveListPageSize clientPageSize (resolveListLimit (-1)) totalRows = -1 := by
    rw [resolveListLimit_of_ne (-1) (by norm_num)]
    exact resolveListPageSize_clamp clientPageSize (-1) totalRows h (by omega)
  simp only [listEnvelopePaging, scopePagination]
  rw [hps]
  exact ⟨rfl, rfl, rfl, rfl, rfl, rfl⟩

/-- Witness for C10 at a concrete request: a client pageSize of 50 with
Limit -1 resolves to pageSize -1 in the metadata and links. -/
theorem C10_unlimited_clamp_witness :
    (listEnvelopePaging (-1) 0 50 7 "/w").metaPageSize = -1
    ∧ (listEnvelopePaging (-1) 0 50 7 "/w").limit = -1
    ∧ (listEnvelopePaging (-1) 0 50 7 "/w").selfLink = "/w?page=0&pageSize=-1" := by
  refine ⟨(C10_unlimited_clamp 0 50 7 "/w" (by norm_num)).1,
    (C10_unlimited_clamp 0 50 7 "/w" (by norm_num)).2.1,
    ((C10_unlimited_clamp 0 50 7 "/w" (by norm_num)).2.2.2.1).trans (by decide)⟩

/-- Claim C5: in Get with key validation disabled, a raw path value
failing the safe-character pattern yields the key-validation error with
status 400 and an empty storage trace — the failure happens before any
storage call, for every storage oracle — while a raw value matching the
pattern is passed through as the key value of the single storage call. -/
theorem C5_get_disabled_validation (fields : List GoField) (cfg : GetConfig)
    (ctxParam : String → String) (dbFirst : String → GoValue → Option String) (fi : FieldInfo)
    (hdis : cfg.disableValidationKey = true)
    (hfi : (if cfg.columnKey ≠ "" then findFieldInfoByName fields cfg.columnKey
            else findFieldInfoByTag fields "gorm" "primaryKey") = Except.ok fi) :
    (validKeyPattern (ctxParam (if cfg.keyParam ≠ "" then cfg.keyParam else defaultKeyParam)) = false →
      ormGet (GoType.tPtr (GoType.tStruct fields)) cfg ctxParam dbFirst
        = (Except.error (ErrResp.mk ErrValidatingIDParam ErrType.bind 400), []))
    ∧ (validKeyPattern (ctxParam (if cfg.keyParam ≠ "" then cfg.keyParam else defaultKeyParam)) = true →
      (ormGet (GoType.tPtr (GoType.tStruct fields)) cfg ctxParam dbFirst).2
        = [(fi.name ++ " = ?",
            GoValue.vStr (ctxParam (if cfg.keyParam ≠ "" then cfg.keyParam else defaultKeyParam)))]) := by
  constructor
  · intro hpat
    simp only [ormGet, normalizePointerType, structFields]
    rw [hfi]
    simp only [hdis, Bool.not_true, Bool.false_eq_true, if_false, hpat]
  · intro hpat
    simp only [ormGet, normalizePointerType, structFields]
    rw [hfi]
    simp only [hdis, Bool.not_true, Bool.false_eq_true, if_false, hpat, if_true]
    cases dbFirst (fi.name ++ " = ?")
        (GoValue.vStr (ctxParam (if cfg.keyParam ≠ "" then cfg.keyParam else defaultKeyParam))) <;>
      rfl

/-- Witness for C5 at a concrete record type with an int identity field and
validation disabled: path value 42;drop fails with the validation error
and an empty storage trace, path value 42abc reaches storage as the raw
key value. -/
theorem C5_get_disabled_validation_witness :
    ormGet (GoType.tPtr (GoType.tStruct [GoField.mk "ID" [("gorm", "primaryKey")] GoKind.kInt]))
        (GetConfig.mk "" "" true) (fun _ => "42;drop") (fun _ _ => none)
      = (Except.error (ErrResp.mk ErrValidatingIDParam ErrType.bind 400), [])
    ∧ (ormGet (GoType.tPtr (GoType.tStruct [GoField.mk "ID" [("gorm", "primaryKey")] GoKind.kInt]))
        (GetConfig.mk "" "" true) (fun _ => "42abc") (fun _ _ => none)).2
      = [("ID = ?", GoValue.vStr "42abc")] := by
  constructor
  · exact (C5_get_disabled_validation [GoField.mk "ID" [("gorm", "primaryKey")] GoKind.kInt]
      (GetConfig.mk "" "" true) (fun _ => "42;drop") (fun _ _ => none)
      (FieldInfo.mk "ID" "" GoKind.kInt) rfl rfl).1 (by decide)
  · exact (C5_get_disabled_validation [GoField.mk "ID" [("gorm", "primaryKey")] GoKind.kInt]
      (GetConfig.mk "" "" true) (fun _ => "42abc") (fun _ _ => none)
      (FieldInfo.mk "ID" "" GoKind.kInt) rfl rfl).2 (by decide)

/-- Claim C6: Update on a record type with no identity-marked field and no
ColumnKey override fails with the identity-resolution configuration error
(status 500) and an empty storage trace — before any storage call — for
every key parameter, bind outcome and storage oracle, and regardless of
whether binding is disabled; key resolution precedes both the bind step
and storage execution. -/
theorem C6_update_missing_identity (fields : List GoField) (cfg : UpdateConfig)
    (ctxParam : String → String) (bindJson : Option String)
    (dbUpdate : String → GoValue → Option String)
    (hkey : cfg.columnKey = "")
    (hnone : ∀ f ∈ fields, goContains (tagGet f.tags "gorm") "primaryKey" = false) :
    ormUpdate (GoType.tPtr (GoType.tStruct fields)) cfg ctxParam bindJson dbUpdate
      = (Except.error (ErrResp.mk ErrObtainingObjectInfo ErrType.unknown 500), []) := by
  have hfilter : fields.filter (fun f => goContains (tagGet f.tags "gorm") "primaryKey") = [] := by
    rw [List.filter_eq_nil_iff]
    intro f hf
    simp [hnone f hf]
  have hfind : findFieldInfoByTag fields "gorm" "primaryKey"
      = Except.error AuditError.fieldNotFound := by
    rw [findFieldInfoByTag_eq_match, hfilter]
  simp only [ormUpdate, normalizePointerType, structFields, hkey]
  simp only [ne_eq, not_true_eq_false, if_false, hfind]

/-- Witness for C6 at a concrete record type without an identity marker:
the configuration error is returned with an empty storage trace, both with
binding disabled and with binding enabled and a failing bind outcome. -/
theorem C6_update_missing_identity_witness :
    ormUpdate (GoType.tPtr (GoType.tStruct [GoField.mk "Name" [("json", "name")] GoKind.kStr]))
        (UpdateConfig.mk "" "" true false) (fun _ => "1") none (fun _ _ => none)
      = (Except.error (ErrResp.mk ErrObtainingObjectInfo ErrType.unknown 500), [])
    ∧ ormUpdate (GoType.tPtr (GoType.tStruct [GoField.mk "Name" [("json", "name")] GoKind.kStr]))
        (UpdateConfig.mk "" "" false false) (fun _ => "1") (some "malformed body") (fun _ _ => none)
      = (Except.error (ErrResp.mk ErrObtainingObjectInfo ErrType.unknown 500), []) :=
  ⟨C6_update_missing_identity [GoField.mk "Name" [("json", "name")] GoKind.kStr]
      (UpdateConfig.mk "" "" true false) (fun _ => "1") none (fun _ _ => none) rfl (by decide),
   C6_update_missing_identity [GoField.mk "Name" [("json", "name")] GoKind.kStr]
      (UpdateConfig.mk "" "" false false) (fun _ => "1") (some "malformed body") (fun _ _ => none)
      rfl (by decide)⟩

end Capyvel
